import Mathlib

/-!
Shallow embedding of `src/src/main.py` (class `LogRetriever`), the
date-based log extraction tool.  The file is modelled as a `List Char`
(one `Char` per byte; the log format is single-byte text), positions as
`Nat` (with `Int` at the points where the Python code can produce a
negative offset), and the `while` loops of `refine_search` and of the
extraction pass — which do not terminate on every input — are modelled
with an explicit fuel parameter, `none` meaning the fuel ran out (i.e.
the loop had not finished after that many iterations).
-/

/-- The six ASCII whitespace characters removed by Python `str.strip()`
(the log format is ASCII, so the Unicode cases do not arise). -/
def isSpaceChar (c : Char) : Bool :=
  c = ' ' || c = '\t' || c = '\n' || c = '\r' || c = '\x0b' || c = '\x0c'

/-- Python `str.strip()`: remove leading and trailing whitespace. -/
def stripList (l : List Char) : List Char :=
  ((l.dropWhile isSpaceChar).reverse.dropWhile isSpaceChar).reverse

/-- `mm.readline()` starting at the head of the given suffix: the bytes up
to and including the first newline (or the rest of the file if none). -/
def takeLine : List Char → List Char
  | [] => []
  | c :: cs => if c = '\n' then [c] else c :: takeLine cs

/-- Python `str.startswith`: `listStartsWith l p` is true iff `p` is a
prefix of `l`. -/
def listStartsWith : List Char → List Char → Bool
  | _, [] => true
  | [], _ :: _ => false
  | c :: cs, p :: ps => (c == p) && listStartsWith cs ps

/-- The backward scan of `LogRetriever.find_nearest_line_start`
(main.py lines 181-185): decrement while `pos > 0` and the byte before
`pos` is not a newline. -/
def walkBack (file : List Char) : Nat → Nat
  | 0 => 0
  | pos + 1 => if file.getD pos ' ' = '\n' then pos + 1 else walkBack file pos

/-- The bound checking of `LogRetriever.find_nearest_line_start`
(main.py lines 175-179): `if pos >= file_size: pos = file_size - 1`,
then `if pos < 0: pos = 0`. -/
def clampPos (file_size : Nat) (pos : Int) : Nat :=
  let p1 : Int := if (file_size : Int) ≤ pos then (file_size : Int) - 1 else pos
  let p2 : Int := if p1 < 0 then 0 else p1
  p2.toNat

/-- `LogRetriever.find_nearest_line_start` (main.py lines 171-185). -/
def find_nearest_line_start (file : List Char) (pos : Int) : Nat :=
  walkBack file (clampPos file.length pos)

/-! ## Dates: `datetime.strptime(s, "%Y-%m-%d")` and date arithmetic -/

/-- A calendar date as produced by `datetime.strptime(s, "%Y-%m-%d")`. -/
structure Date where
  year : Nat
  month : Nat
  day : Nat
deriving DecidableEq

def isDigit (c : Char) : Bool := '0' ≤ c && c ≤ '9'

def digitVal (c : Char) : Nat := c.toNat - '0'.toNat

/-- Gregorian leap-year rule (as in Python `calendar`/`datetime`). -/
def isLeap (y : Nat) : Bool := (y % 4 == 0 && y % 100 != 0) || (y % 400 == 0)

def daysInMonth (y m : Nat) : Nat :=
  if m = 2 then (if isLeap y then 29 else 28)
  else if m = 4 ∨ m = 6 ∨ m = 9 ∨ m = 11 then 30
  else 31

/-- `%Y` in CPython `_strptime`: exactly four digits. -/
def parseYear : List Char → Option (Nat × List Char)
  | a :: b :: c :: d :: rest =>
    if isDigit a && isDigit b && isDigit c && isDigit d then
      some (1000 * digitVal a + 100 * digitVal b + 10 * digitVal c + digitVal d, rest)
    else none
  | _ => none

/-- `%m` in CPython `_strptime`: the alternation `1[0-2]|0[1-9]|[1-9]`. -/
def parseMonth : List Char → Option (Nat × List Char)
  | '1' :: c :: rest =>
    if '0' ≤ c && c ≤ '2' then some (10 + digitVal c, rest) else some (1, c :: rest)
  | '0' :: c :: rest =>
    if '1' ≤ c && c ≤ '9' then some (digitVal c, rest) else none
  | c :: rest =>
    if '1' ≤ c && c ≤ '9' then some (digitVal c, rest) else none
  | [] => none

/-- `%d` in CPython `_strptime`: the alternation
`3[01]|[12][0-9]|0[1-9]|[1-9]| [1-9]`. -/
def parseDay : List Char → Option (Nat × List Char)
  | '3' :: c :: rest =>
    if c = '0' || c = '1' then some (30 + digitVal c, rest) else some (3, c :: rest)
  | '1' :: c :: rest =>
    if isDigit c then some (10 + digitVal c, rest) else some (1, c :: rest)
  | '2' :: c :: rest =>
    if isDigit c then some (20 + digitVal c, rest) else some (2, c :: rest)
  | '0' :: c :: rest =>
    if '1' ≤ c && c ≤ '9' then some (digitVal c, rest) else none
  | ' ' :: c :: rest =>
    if '1' ≤ c && c ≤ '9' then some (digitVal c, rest) else none
  | c :: rest =>
    if '1' ≤ c && c ≤ '9' then some (digitVal c, rest) else none
  | [] => none

/-- `datetime.strptime(s, "%Y-%m-%d")` followed by the `datetime`
constructor's validity check: `none` models a raised `ValueError`
(pattern mismatch, leftover characters, year 0, or day out of range for
the month). -/
def parseDate (s : List Char) : Option Date :=
  match parseYear s with
  | none => none
  | some (y, r1) =>
    match r1 with
    | '-' :: r2 =>
      (match parseMonth r2 with
      | none => none
      | some (m, r3) =>
        match r3 with
        | '-' :: r4 =>
          (match parseDay r4 with
          | none => none
          | some (d, r5) =>
            if r5 = [] ∧ 1 ≤ y ∧ d ≤ daysInMonth y m then some ⟨y, m, d⟩ else none)
        | _ => none)
    | _ => none

/-- Days since 1970-01-01 of a proleptic Gregorian date (the standard
civil-from-days formula); differences of this function equal differences
of Python `datetime.date.toordinal`, which is what the subtraction of two
`datetime` values at midnight computes via `.days`. -/
def daysFromCivil (y : Int) (m d : Nat) : Int :=
  let y2 : Int := if m ≤ 2 then y - 1 else y
  let era : Int := Int.fdiv y2 400
  let yoe : Int := y2 - era * 400
  let mp : Int := ((m : Int) + 9) % 12
  let doy : Int := Int.fdiv (153 * mp + 2) 5 + (d : Int) - 1
  let doe : Int := yoe * 365 + Int.fdiv yoe 4 - Int.fdiv yoe 100 + doy
  era * 146097 + doe - 719468

/-- `(datetime(t.year, t.month, t.day) - datetime(nowYear, 1, 1)).days`
(main.py lines 157-158); `nowYear` is the value of `datetime.now().year`
at the moment of the call. -/
def days_diff (nowYear : Int) (t : Date) : Int :=
  daysFromCivil (t.year : Int) t.month t.day - daysFromCivil nowYear 1 1

/-! ## The refinement loops of `LogRetriever.refine_search` -/

/-- The first `while` loop of `refine_search` (main.py lines 192-198):
while `start_pos > 0`, read the line at `start_pos`; stop at the first
line that does not start with the target, otherwise step back by
`day_size // 10` and re-align.  The extra `Nat` argument is fuel: `none`
means the loop had not finished after that many iterations. -/
def backLoop (file target : List Char) (day_size : Nat) : Nat → Nat → Option Nat
  | 0, _ => none
  | fuel + 1, start_pos =>
    if start_pos = 0 then some start_pos
    else
      let line := stripList (takeLine (file.drop start_pos))
      if listStartsWith line target then
        backLoop file target day_size fuel
          (find_nearest_line_start file ((start_pos : Int) - (day_size / 10 : Nat)))
      else some start_pos

/-- The second `while` loop of `refine_search` (main.py lines 201-207):
while `end_pos < file_size`, read the line at `end_pos`; stop at the
first line that does not start with the target, otherwise step forward
by `day_size // 10` and re-align.  Fuel as in `backLoop`. -/
def fwdLoop (file target : List Char) (day_size : Nat) : Nat → Nat → Option Nat
  | 0, _ => none
  | fuel + 1, end_pos =>
    if end_pos < file.length then
      let line := stripList (takeLine (file.drop end_pos))
      if listStartsWith line target then
        fwdLoop file target day_size fuel
          (find_nearest_line_start file ((end_pos : Int) + (day_size / 10 : Nat)))
      else some end_pos
    else some end_pos

/-- `LogRetriever.refine_search` (main.py lines 187-209): both loops run
from the same initial position; `none` if either loop ran out of fuel. -/
def refine_search (fuel : Nat) (file target : List Char) (initial_pos day_size : Nat) :
    Option (Nat × Nat) :=
  match backLoop file target day_size fuel initial_pos,
        fwdLoop file target day_size fuel initial_pos with
  | some s, some e => some (s, e)
  | _, _ => none

/-- The initial position estimate of `binary_search_position`
(main.py lines 159-162): `days_diff * day_size` handed to
`find_nearest_line_start`. -/
def initialPosition (file : List Char) (nowYear : Int) (t : Date) : Nat :=
  find_nearest_line_start file (days_diff nowYear t * ((file.length / 365 : Nat) : Int))

/-- The raw clamped estimate: `days_diff * day_size` after the bound
checking of `find_nearest_line_start`, before the backward newline scan.
A function of the file length only, not of the file contents. -/
def estimatedPosition (file_size : Nat) (nowYear : Int) (t : Date) : Nat :=
  clampPos file_size (days_diff nowYear t * ((file_size / 365 : Nat) : Int))

/-- Result of `LogRetriever.binary_search_position`: `err` is the
`except ValueError` branch returning `(None, None)` (main.py lines
167-169); `res none` means a refinement loop had not finished within the
given fuel (the Python code never returns in that case). -/
inductive BspResult where
  | err : BspResult
  | res : Option (Nat × Nat) → BspResult
deriving DecidableEq

/-- `LogRetriever.binary_search_position` (main.py lines 141-169).
`nowYear` is the value `datetime.now().year` read inside the function. -/
def binary_search_position (fuel : Nat) (file target : List Char) (nowYear : Int) :
    BspResult :=
  let day_size := file.length / 365
  match parseDate target with
  | none => BspResult.err
  | some t =>
    BspResult.res (refine_search fuel file target (initialPosition file nowYear t) day_size)

/-- The extraction `while` loop of `extract_logs` (main.py lines
233-237): from `pos`, while `tell < end_pos`, read a line and keep it if
it starts with the target; the written output is the concatenation of
the kept lines.  Fuel as in the refinement loops (the Python loop does
not terminate if it ever reads past the end of file, which cannot happen
for the positions `refine_search` returns). -/
def extractLoop (file target : List Char) (end_pos : Nat) : Nat → Nat → Option (List Char)
  | 0, _ => none
  | fuel + 1, pos =>
    if pos < end_pos then
      let line := takeLine (file.drop pos)
      match extractLoop file target end_pos fuel (pos + line.length) with
      | none => none
      | some rest => some ((if listStartsWith line target then line else []) ++ rest)
    else some []

/-- Result of `LogRetriever.extract_logs`: `failedPositions` is the
`start_pos is None or end_pos is None` branch (main.py lines 227-229),
`success out` is a `True` return with `out` the bytes written to the
output file, `fuelOut` means one of the loops had not finished within
the given fuel. -/
inductive ExtractResult where
  | failedPositions : ExtractResult
  | fuelOut : ExtractResult
  | success : List Char → ExtractResult
deriving DecidableEq

/-- `LogRetriever.extract_logs` (main.py lines 211-244), minus the file
system glue: the mapped file is `file`, the output file contents are
returned instead of written. -/
def extract_logs (fuel : Nat) (file target : List Char) (nowYear : Int) : ExtractResult :=
  match binary_search_position fuel file target nowYear with
  | BspResult.err => ExtractResult.failedPositions
  | BspResult.res none => ExtractResult.fuelOut
  | BspResult.res (some (start_pos, end_pos)) =>
    match extractLoop file target end_pos fuel start_pos with
    | none => ExtractResult.fuelOut
    | some out => ExtractResult.success out

/-! ## Concrete inputs used by the claims -/

/-- The four-line file of the spec's concrete scenario. -/
def c2file : List Char :=
  ("2024-12-01 10:00:00 INFO a\n2024-12-02 09:00:00 INFO b\n2024-12-02 09:05:00 WARN c\n2024-12-03 08:00:00 INFO d\n").toList

/-- A one-line file whose single line is dated 2024-12-02: the forward
refinement loop re-aligns to position 0 forever on it. -/
def c3file : List Char := ("2024-12-02 09:00:00 INFO b\n").toList

/-- A three-line sorted file whose last date is 2024-12-03. -/
def c5file : List Char :=
  ("2024-12-01 10:00:00 INFO a\n2024-12-02 09:00:00 INFO b\n2024-12-03 08:00:00 INFO d\n").toList

/-- A four-line sorted file with one contiguous block dated 2024-12-02,
surrounded by lines of other ordered distinct dates. -/
def c1file : List Char :=
  ("2024-11-30 23:59:59 INFO x\n2024-12-02 09:00:00 INFO b\n2024-12-02 09:05:00 WARN c\n2024-12-04 08:00:00 INFO d\n").toList

/-- A 370-byte file of 37 ten-byte lines, none of which mentions any
date: large enough that `day_size = 370 // 365 = 1` is nonzero, so the
position estimate actually depends on the clock year. -/
def c7file : List Char :=
  (List.replicate 37 (("aaaaaaaaa\n").toList)).flatten

/-! ## Helper lemmas -/

theorem walkBack_le (file : List Char) : ∀ p, walkBack file p ≤ p := by
  intro p
  induction p with
  | zero => exact Nat.le_refl 0
  | succ n ih =>
    simp only [walkBack]
    split
    · exact Nat.le_refl _
    · exact Nat.le_trans ih (Nat.le_succ n)

theorem walkBack_aligned (file : List Char) :
    ∀ p, walkBack file p = 0 ∨ file.getD (walkBack file p - 1) ' ' = '\n' := by
  intro p
  induction p with
  | zero => exact Or.inl rfl
  | succ n ih =>
    simp only [walkBack]
    split
    · next h => exact Or.inr (by simpa using h)
    · exact ih

theorem clampPos_lt (L : Nat) (h : 1 ≤ L) (p : Int) : clampPos L p < L := by
  simp only [clampPos]
  split <;> split <;> omega

theorem clampPos_of_lt (L pos : Nat) (h : pos < L) : clampPos L (pos : Int) = pos := by
  simp only [clampPos]
  split <;> split <;> omega

theorem initialPosition_lt (file : List Char) (h : file ≠ []) (y : Int) (t : Date) :
    initialPosition file y t < file.length := by
  have hL : 1 ≤ file.length := List.length_pos.mpr h
  exact Nat.lt_of_le_of_lt (walkBack_le _ _) (clampPos_lt _ hL _)

theorem listStartsWith_iff (l t : List Char) : listStartsWith l t = true ↔ t <+: l := by
  induction t generalizing l with
  | nil =>
    cases l <;> simp [listStartsWith]
  | cons a ts ih =>
    cases l with
    | nil => simp [listStartsWith]
    | cons c cs =>
      simp only [listStartsWith, Bool.and_eq_true, beq_iff_eq, ih, List.cons_prefix_cons]
      exact and_congr_left (fun _ => eq_comm)

/-- `takeLine l` is a prefix of `l`. -/
theorem takeLine_isPre (l : List Char) : takeLine l <+: l := by
  induction l with
  | nil => exact List.nil_prefix
  | cons c cs ih =>
    simp only [takeLine]
    split
    · exact ⟨cs, rfl⟩
    · obtain ⟨r, hr⟩ := ih
      exact ⟨r, by rw [List.cons_append, hr]⟩

/-- A suffix of the reverse of a list, reversed, is a prefix of the list. -/
theorem revSuffixToPre {l₁ l₂ : List Char} (h : l₁ <:+ l₂.reverse) :
    l₁.reverse <+: l₂ := by
  obtain ⟨u, hu⟩ := h
  refine ⟨u.reverse, ?_⟩
  have h2 := congrArg List.reverse hu
  simpa [List.reverse_append] using h2

/-- `stripList l` is a prefix of `l.dropWhile isSpaceChar`. -/
theorem stripList_isPre (l : List Char) :
    stripList l <+: l.dropWhile isSpaceChar := by
  unfold stripList
  exact revSuffixToPre (List.dropWhile_suffix isSpaceChar)

/-- `dropWhile` is a `drop`. -/
theorem dropWhile_eq_drop (p : Char → Bool) (l : List Char) :
    ∃ k, l.dropWhile p = l.drop k := by
  obtain ⟨u, hu⟩ := List.dropWhile_suffix (l := l) p
  refine ⟨u.length, ?_⟩
  conv_rhs => rw [← hu]
  rw [List.drop_left]

/-- Dropping preserves the prefix relation. -/
theorem isPre_drop : ∀ {l₁ l₂ : List Char} (k : Nat), l₁ <+: l₂ → l₁.drop k <+: l₂.drop k := by
  intro l₁ l₂ k
  induction k generalizing l₁ l₂ with
  | zero => simp
  | succ n ih =>
    intro h
    cases l₁ with
    | nil => simp
    | cons a as =>
      cases l₂ with
      | nil => simp at h
      | cons b bs =>
        rw [List.cons_prefix_cons] at h
        obtain ⟨rfl, h2⟩ := h
        simpa using ih h2

/-- If the stripped line read at offset `p` starts with the target, then
the target occurs verbatim somewhere in the file. -/
theorem stripped_line_occurs {file target : List Char} {p : Nat}
    (h : listStartsWith (stripList (takeLine (file.drop p))) target = true) :
    ∃ q, listStartsWith (file.drop q) target = true := by
  rw [listStartsWith_iff] at h
  obtain ⟨k, hk⟩ := dropWhile_eq_drop isSpaceChar (takeLine (file.drop p))
  have h1 : stripList (takeLine (file.drop p)) <+: (takeLine (file.drop p)).drop k := by
    rw [← hk]; exact stripList_isPre _
  have h2 : (takeLine (file.drop p)).drop k <+: (file.drop p).drop k :=
    isPre_drop k (takeLine_isPre _)
  have h3 : target <+: (file.drop p).drop k := h.trans (h1.trans h2)
  rw [List.drop_drop] at h3
  exact ⟨p + k, (listStartsWith_iff _ _).mpr h3⟩

/-! ## Claims -/

/-- C8: for every non-empty file view and every byte position `pos` in
`[0, length)`, `find_nearest_line_start` returns a position `p` with
`p = 0` or the byte at `p - 1` a newline, i.e. always a valid line
start. -/
theorem align_returns_line_start (file : List Char) (pos : Nat) (h : pos < file.length) :
    find_nearest_line_start file (pos : Int) = 0 ∨
    file.getD (find_nearest_line_start file (pos : Int) - 1) ' ' = '\n' := by
  unfold find_nearest_line_start
  rw [clampPos_of_lt _ _ h]
  exact walkBack_aligned file pos

theorem align_returns_line_start_wit :
    find_nearest_line_start (("a\nb\n").toList) ((3 : Nat) : Int) = 0 ∨
    (("a\nb\n").toList).getD
      (find_nearest_line_start (("a\nb\n").toList) ((3 : Nat) : Int) - 1) ' ' = '\n' :=
  align_returns_line_start (("a\nb\n").toList) 3 (by decide)

/-- C9: the backward aligner is idempotent: aligning an already-aligned
position `pos` in `[0, length)` (position 0 or a position directly after
a newline byte) returns `pos` itself. -/
theorem align_idempotent_on_aligned (file : List Char) (pos : Nat) (h : pos < file.length)
    (ha : pos = 0 ∨ file.getD (pos - 1) ' ' = '\n') :
    find_nearest_line_start file (pos : Int) = pos := by
  unfold find_nearest_line_start
  rw [clampPos_of_lt _ _ h]
  rcases ha with rfl | ha
  · rfl
  · cases pos with
    | zero => rfl
    | succ n =>
      simp only [walkBack]
      rw [if_pos (by simpa using ha)]

theorem align_idempotent_on_aligned_wit :
    find_nearest_line_start (("a\nb\n").toList) ((2 : Nat) : Int) = 2 :=
  align_idempotent_on_aligned (("a\nb\n").toList) 2 (by decide) (Or.inr (by decide))

/-- C6: for every non-empty file, target date and reference year, the
code computes `day_size = length / 365` by integer division, the
unclamped signed day difference `days_diff` from January 1 of the
reference year, and the estimate `days_diff * day_size` is clamped into
`[0, length - 1]` (by the bound checking of `find_nearest_line_start`)
before the backward newline alignment scan runs over it. -/
theorem estimator_clamped_before_alignment (file : List Char) (h : file ≠ [])
    (y : Int) (t : Date) :
    initialPosition file y t =
      walkBack file (clampPos file.length (days_diff y t * ((file.length / 365 : Nat) : Int))) ∧
    clampPos file.length (days_diff y t * ((file.length / 365 : Nat) : Int)) ≤ file.length - 1 := by
  refine ⟨rfl, ?_⟩
  have hL : 1 ≤ file.length := List.length_pos.mpr h
  have := clampPos_lt file.length hL (days_diff y t * ((file.length / 365 : Nat) : Int))
  omega

theorem estimator_clamped_before_alignment_wit :
    initialPosition (("a\n").toList) 2026 ⟨2024, 12, 2⟩ =
      walkBack (("a\n").toList)
        (clampPos (("a\n").toList).length
          (days_diff 2026 ⟨2024, 12, 2⟩ * (((("a\n").toList).length / 365 : Nat) : Int))) ∧
    clampPos (("a\n").toList).length
        (days_diff 2026 ⟨2024, 12, 2⟩ * (((("a\n").toList).length / 365 : Nat) : Int)) ≤
      (("a\n").toList).length - 1 :=
  estimator_clamped_before_alignment (("a\n").toList) (by decide) 2026 ⟨2024, 12, 2⟩

set_option maxRecDepth 8000 in
/-- C7 (counterexample): the position search is NOT independent of the
ambient clock: `binary_search_position` reads `datetime.now().year`
internally (modelled by its `nowYear` argument), and on a fixed file and
fixed target date it returns different positions for clock years 2024
and 2023. -/
theorem estimator_clock_dependent_cex :
    binary_search_position 3 c7file (("2024-01-11").toList) 2024 ≠
      binary_search_position 3 c7file (("2024-01-11").toList) 2023 := by
  decide

/-- C7 (amended): the estimated byte position is a function of the file
length, the target date and the clock year read internally at call time:
it does not depend on the file contents (only on the length), and the
initial position is that clamped estimate followed by backward
alignment. -/
theorem estimator_function_of_length_year_target
    (file1 file2 : List Char) (y : Int) (t : Date) (h : file1.length = file2.length) :
    estimatedPosition file1.length y t = estimatedPosition file2.length y t ∧
    initialPosition file1 y t = walkBack file1 (estimatedPosition file1.length y t) :=
  ⟨by rw [h], rfl⟩

theorem estimator_function_of_length_year_target_wit :
    estimatedPosition (("ab\n").toList).length 2026 ⟨2024, 1, 11⟩ =
      estimatedPosition (("xy\n").toList).length 2026 ⟨2024, 1, 11⟩ ∧
    initialPosition (("ab\n").toList) 2026 ⟨2024, 1, 11⟩ =
      walkBack (("ab\n").toList) (estimatedPosition (("ab\n").toList).length 2026 ⟨2024, 1, 11⟩) :=
  estimator_function_of_length_year_target (("ab\n").toList) (("xy\n").toList) 2026
    ⟨2024, 1, 11⟩ (by decide)

/-- C10: when the target date string has already passed the `%Y-%m-%d`
validation done in `main` (modelled: `parseDate target = some d`), the
second parse inside `binary_search_position` succeeds as well, so the
`ValueError` branch returning `(None, None)` — and with it the
"Failed to find log positions" failure path of `extract_logs` — is
unreachable. -/
theorem validated_date_error_branch_unreachable
    (fuel : Nat) (file target : List Char) (y : Int) (d : Date)
    (_hne : file ≠ []) (hp : parseDate target = some d) :
    binary_search_position fuel file target y ≠ BspResult.err ∧
    extract_logs fuel file target y ≠ ExtractResult.failedPositions := by
  constructor
  · simp [binary_search_position, hp]
  · have hbsp : binary_search_position fuel file target y =
        BspResult.res (refine_search fuel file target (initialPosition file y d)
          (file.length / 365)) := by
      simp [binary_search_position, hp]
    unfold extract_logs
    rw [hbsp]
    cases hr : refine_search fuel file target (initialPosition file y d) (file.length / 365) with
    | none => simp
    | some pr =>
      obtain ⟨a, b⟩ := pr
      simp only
      cases hx : extractLoop file target b fuel a <;> simp [hx]

theorem validated_date_error_branch_unreachable_wit :
    binary_search_position 1 (("a\n").toList) (("2024-12-02").toList) 2026 ≠ BspResult.err ∧
    extract_logs 1 (("a\n").toList) (("2024-12-02").toList) 2026 ≠
      ExtractResult.failedPositions :=
  validated_date_error_branch_unreachable 1 (("a\n").toList) (("2024-12-02").toList) 2026
    ⟨2024, 12, 2⟩ (by decide) (by decide)

/-- If no suffix of the file starts with the (non-empty) target string,
then no stripped line read at any offset starts with it either. -/
theorem no_line_matches {file target : List Char}
    (htne : target ≠ [])
    (habs : ∀ q < file.length, listStartsWith (List.drop q file) target = false) :
    ∀ p, listStartsWith (stripList (takeLine (file.drop p))) target = false := by
  have habs' : ∀ q, ¬ listStartsWith (List.drop q file) target = true := by
    intro q hq
    by_cases hlt : q < file.length
    · rw [habs q hlt] at hq
      exact Bool.false_ne_true hq
    · rw [List.drop_eq_nil_of_le (Nat.le_of_not_lt hlt)] at hq
      cases target with
      | nil => exact htne rfl
      | cons a ts => simp [listStartsWith] at hq
  intro p
  cases hb : listStartsWith (stripList (takeLine (file.drop p))) target with
  | false => rfl
  | true =>
    obtain ⟨q, hq⟩ := stripped_line_occurs hb
    exact absurd hq (habs' q)

/-- C4: for a non-empty file and a valid target date whose date string
occurs nowhere in the file, the run completes without a hard error and
with empty output: both refinement loops stop on their first line read,
the bracketed range collapses, and `extract_logs` returns `True` having
written nothing (the `NoMatchingRecords` outcome). -/
theorem extract_absent_date_success_empty
    (file target : List Char) (d : Date) (y : Int) (fuel : Nat)
    (hne : file ≠ []) (hp : parseDate target = some d) (hfuel : 1 ≤ fuel)
    (htne : target ≠ [])
    (habs : ∀ q < file.length, listStartsWith (List.drop q file) target = false) :
    extract_logs fuel file target y = ExtractResult.success [] := by
  obtain ⟨n, rfl⟩ : ∃ n, fuel = n + 1 := ⟨fuel - 1, by omega⟩
  have hline := no_line_matches htne habs
  have hlt : initialPosition file y d < file.length := initialPosition_lt file hne y d
  have hback : backLoop file target (file.length / 365) (n + 1) (initialPosition file y d) =
      some (initialPosition file y d) := by
    simp only [backLoop]
    by_cases h0 : initialPosition file y d = 0
    · rw [if_pos h0, h0]
    · rw [if_neg h0, hline (initialPosition file y d)]
      simp
  have hfwd : fwdLoop file target (file.length / 365) (n + 1) (initialPosition file y d) =
      some (initialPosition file y d) := by
    simp only [fwdLoop]
    rw [if_pos hlt, hline (initialPosition file y d)]
    simp
  have hrs : refine_search (n + 1) file target (initialPosition file y d)
      (file.length / 365) = some (initialPosition file y d, initialPosition file y d) := by
    unfold refine_search
    rw [hback, hfwd]
  have hbsp : binary_search_position (n + 1) file target y =
      BspResult.res (some (initialPosition file y d, initialPosition file y d)) := by
    simp only [binary_search_position, hp]
    rw [hrs]
  have hext : extractLoop file target (initialPosition file y d) (n + 1)
      (initialPosition file y d) = some [] := by
    simp [extractLoop]
  unfold extract_logs
  rw [hbsp]
  simp only [hext]

theorem extract_absent_date_success_empty_wit :
    extract_logs 1 (("2024-12-01 10:00:00 INFO a\n").toList) (("2024-12-02").toList) 2026 =
      ExtractResult.success [] :=
  extract_absent_date_success_empty (("2024-12-01 10:00:00 INFO a\n").toList)
    (("2024-12-02").toList) ⟨2024, 12, 2⟩ 2026 1 (by decide) (by decide) (by decide)
    (by decide) (by decide)

/-- Aligning position 0 returns 0. -/
theorem fnls_zero (file : List Char) : find_nearest_line_start file 0 = 0 := by
  unfold find_nearest_line_start
  have h : clampPos file.length 0 = 0 := by
    simp only [clampPos]
    split <;> split <;> omega
  rw [h]
  rfl

/-- For a file shorter than 365 bytes, `day_size = length // 365 = 0`,
so the estimate `days_diff * day_size` is byte 0 for every clock year
and every target date. -/
theorem initialPosition_of_small (file : List Char) (y : Int) (t : Date)
    (h : file.length / 365 = 0) : initialPosition file y t = 0 := by
  unfold initialPosition
  rw [h]
  simp only [Nat.cast_zero, mul_zero]
  exact fnls_zero file

set_option maxRecDepth 4000 in
/-- C2: on the exact four-line file of the spec's concrete scenario with
target `2024-12-02`, the code writes NOTHING (for every clock year):
`day_size = 108 // 365 = 0`, the estimate lands on byte 0, whose line is
dated `2024-12-01`, so both refinement loops stop at once and the range
collapses to `(0, 0)`; the claimed output would be the two `2024-12-02`
lines. -/
theorem extract_concrete_scenario_empty (y : Int) :
    extract_logs 5 c2file (("2024-12-02").toList) y = ExtractResult.success [] := by
  have hinit : initialPosition c2file y ⟨2024, 12, 2⟩ = 0 :=
    initialPosition_of_small c2file y ⟨2024, 12, 2⟩ (by decide)
  have hbsp : binary_search_position 5 c2file (("2024-12-02").toList) y =
      BspResult.res (refine_search 5 c2file (("2024-12-02").toList) 0
        (c2file.length / 365)) := by
    simp only [binary_search_position,
      (by decide : parseDate (("2024-12-02").toList) = some ⟨2024, 12, 2⟩), hinit]
  unfold extract_logs
  rw [hbsp]
  decide

set_option maxRecDepth 4000 in
/-- C1: a sorted file with exactly one contiguous block of lines dated
`2024-12-02`, surrounded by lines of other ordered distinct dates, on
which extraction returns NO lines at all (clock year 2026): the block
(which starts at byte 27) is entirely missed, refuting the claim that
exactly the block is written. -/
theorem extract_misses_contiguous_block :
    extract_logs 5 c1file (("2024-12-02").toList) 2026 = ExtractResult.success [] ∧
    listStartsWith (c1file.drop 27) (("2024-12-02").toList) = true := by
  constructor
  · have hinit : initialPosition c1file 2026 ⟨2024, 12, 2⟩ = 0 :=
      initialPosition_of_small c1file 2026 ⟨2024, 12, 2⟩ (by decide)
    have hbsp : binary_search_position 5 c1file (("2024-12-02").toList) 2026 =
        BspResult.res (refine_search 5 c1file (("2024-12-02").toList) 0
          (c1file.length / 365)) := by
      simp only [binary_search_position,
        (by decide : parseDate (("2024-12-02").toList) = some ⟨2024, 12, 2⟩), hinit]
    unfold extract_logs
    rw [hbsp]
    decide
  · decide

set_option maxRecDepth 4000 in
/-- C5: a sorted file whose very last date is `2024-12-03` (its line
starts at byte 54), on which extracting `2024-12-03` returns NO lines
(clock year 2026): the lines of the last date present are truncated away
entirely, refuting the no-truncation claim. -/
theorem extract_last_date_truncated :
    extract_logs 5 c5file (("2024-12-03").toList) 2026 = ExtractResult.success [] ∧
    listStartsWith (c5file.drop 54) (("2024-12-03").toList) = true := by
  constructor
  · have hinit : initialPosition c5file 2026 ⟨2024, 12, 3⟩ = 0 :=
      initialPosition_of_small c5file 2026 ⟨2024, 12, 3⟩ (by decide)
    have hbsp : binary_search_position 5 c5file (("2024-12-03").toList) 2026 =
        BspResult.res (refine_search 5 c5file (("2024-12-03").toList) 0
          (c5file.length / 365)) := by
      simp only [binary_search_position,
        (by decide : parseDate (("2024-12-03").toList) = some ⟨2024, 12, 3⟩), hinit]
    unfold extract_logs
    rw [hbsp]
    decide
  · decide

/-- On the one-line file `c3file`, whose single line matches the target,
the forward refinement loop maps position 0 back to position 0 at every
step (`stride = 0 // 10 = 0`, and the line also runs to the end of the
file), so it is still running after any number of iterations. -/
theorem fwd_loop_stuck_at_zero :
    ∀ n, fwdLoop c3file (("2024-12-02").toList) 0 n 0 = none := by
  intro n
  induction n with
  | zero => rfl
  | succ k ih =>
    have step : fwdLoop c3file (("2024-12-02").toList) 0 (k + 1) 0 =
        fwdLoop c3file (("2024-12-02").toList) 0 k 0 := rfl
    rw [step, ih]

/-- C3: extraction does NOT always terminate: on the one-line file whose
line is dated `2024-12-02`, with that target date, the forward
refinement loop never finishes — for every fuel bound and every clock
year the run is still unfinished (`fuelOut`), refuting the claim that
the refinement loops always perform finitely many iterations. -/
theorem refine_forward_loop_diverges (y : Int) (fuel : Nat) :
    extract_logs fuel c3file (("2024-12-02").toList) y = ExtractResult.fuelOut := by
  have hinit : initialPosition c3file y ⟨2024, 12, 2⟩ = 0 :=
    initialPosition_of_small c3file y ⟨2024, 12, 2⟩ (by decide)
  have hrs : refine_search fuel c3file (("2024-12-02").toList) 0
      (c3file.length / 365) = none := by
    rw [(by decide : (c3file.length / 365 : Nat) = 0)]
    unfold refine_search
    rw [fwd_loop_stuck_at_zero fuel]
    cases backLoop c3file (("2024-12-02").toList) 0 fuel 0 <;> rfl
  simp only [extract_logs, binary_search_position,
    (by decide : parseDate (("2024-12-02").toList) = some ⟨2024, 12, 2⟩), hinit, hrs]
